import Mathlib

/-!
Verification of the model-consent subsystem of LibreChat.

The definitions below are a shallow embedding of:
* `packages/data-schemas/src/methods/modelConsent.ts` (the ConsentStore:
  `acceptModelConsent`, `revokeModelConsent`, `getUserConsents`,
  `getModelConsents`),
* the consent HTTP controllers (`getUserConsentsController`,
  `revokeConsentController`, `getModelConsentsController`),
* the client pre-flight gate (`checkModelConsent` / `submitMessage` in
  `useSubmitMessage`),
* the `modalInfo`-driven `ModelInfoModal` acknowledgment state
  (`acknowledgmentKeys`, `requireAcknowledgment`, `allAcknowledged`,
  `handleAccept`),
* the configuration resolver `getModelSpec` from
  `detectImageGenerationModel`.

Timestamps (`Date` values) are modelled as naturals, Mongo documents as Lean
structures, the collection as a list in natural (insertion) order, and the
denormalized user documents as a function from user id to the embedded
`modelConsents` array.  JavaScript `undefined`/`null` fields are modelled
with `Option`.
-/

namespace ModelConsent

/-- Timestamps (`new Date()` values), modelled as naturals. -/
abbrev Time := Nat

/-- User ids (`req.user.id` strings). -/
abbrev UserId := String

/-- Opaque metadata payload (`Record<string, unknown>`); its internal
structure is never inspected by the consent subsystem, so it is modelled as
a plain string. -/
abbrev Meta := String

/-- An authoritative `ModelConsent` document (`IModelConsent` from
`types/modelConsent.ts`): `userId`, `modelName`, `modelLabel` (default `''`),
`acceptedAt`, `revokedAt : Date | null`, `metadata : ... | null`.  The `id`
field models the Mongo `_id`, assigned at insertion. -/
structure IModelConsent where
  id : Nat
  userId : UserId
  modelName : String
  modelLabel : String
  acceptedAt : Time
  revokedAt : Option Time
  metadata : Option Meta
deriving DecidableEq, Repr

/-- The accept request body (`ModelConsentInput` from `types/modelConsent.ts`):
`modelName` required, `modelLabel` and `metadata` optional. -/
structure ModelConsentInput where
  modelName : String
  modelLabel : Option String
  metadata : Option Meta
deriving DecidableEq, Repr

/-- One element of the denormalized `modelConsents` array embedded on the
user document: `{ modelName, modelLabel, acceptedAt, revokedAt }`. -/
structure EmbeddedConsent where
  modelName : String
  modelLabel : String
  acceptedAt : Time
  revokedAt : Option Time
deriving DecidableEq, Repr

/-- Joint persistent state: the `ModelConsent` collection (in natural order),
the next fresh `_id`, and for each user the embedded `modelConsents` array
of their user document. -/
structure DbState where
  records : List IModelConsent
  nextId : Nat
  users : UserId → List EmbeddedConsent

/-- The filter `{ userId, modelName }` used by the store's queries. -/
def pairMatch (u : UserId) (m : String) (r : IModelConsent) : Bool :=
  r.userId == u && r.modelName == m

/-- The `$set` part of `acceptModelConsent`'s `findOneAndUpdate`: overwrite
`modelLabel` with `input.modelLabel || ''`, `acceptedAt` with `now`, clear
`revokedAt`, overwrite `metadata` with `input.metadata || null`. -/
def applyAcceptSet (i : ModelConsentInput) (now : Time) (r : IModelConsent) :
    IModelConsent :=
  { r with
    modelLabel := i.modelLabel.getD ""
    acceptedAt := now
    revokedAt := none
    metadata := i.metadata }

/-- The document inserted by the upsert branch (`$setOnInsert` supplies
`userId`/`modelName`; `$set` supplies the rest). -/
def freshConsent (u : UserId) (i : ModelConsentInput) (now : Time)
    (fresh : Nat) : IModelConsent :=
  { id := fresh
    userId := u
    modelName := i.modelName
    modelLabel := i.modelLabel.getD ""
    acceptedAt := now
    revokedAt := none
    metadata := i.metadata }

/-- `ModelConsent.findOneAndUpdate({userId, modelName}, {...}, {upsert: true,
new: true})`: update the first document matching `(userId, modelName)` in
place, or append a fresh document; return the resulting document together
with the updated collection. -/
def upsertConsent (u : UserId) (i : ModelConsentInput) (now : Time)
    (fresh : Nat) : List IModelConsent → IModelConsent × List IModelConsent
  | [] => (freshConsent u i now fresh, [freshConsent u i now fresh])
  | r :: rest =>
    if pairMatch u i.modelName r then
      (applyAcceptSet i now r, applyAcceptSet i now r :: rest)
    else
      let p := upsertConsent u i now fresh rest
      (p.1, r :: p.2)

/-- `acceptModelConsent(userId, input)` from `methods/modelConsent.ts`:
atomic upsert on the collection, then on the user document `$pull` every
embedded entry with this `modelName` and `$push` a fresh active entry built
from the input and the resulting document's `acceptedAt`.  Returns the
authoritative document and the new state. -/
def acceptModelConsent (s : DbState) (u : UserId) (i : ModelConsentInput)
    (now : Time) : IModelConsent × DbState :=
  let p := upsertConsent u i now s.nextId s.records
  let pulled := (s.users u).filter (fun e => !(e.modelName == i.modelName))
  let pushed := pulled ++
    [{ modelName := i.modelName
       modelLabel := i.modelLabel.getD ""
       acceptedAt := p.1.acceptedAt
       revokedAt := none }]
  (p.1,
    { records := p.2
      nextId := s.nextId + 1
      users := fun v => if v = u then pushed else s.users v })

/-- `ModelConsent.updateOne({userId, modelName, revokedAt: null},
{$set: {revokedAt: now}})`: set `revokedAt` on the first *active* document
for the pair; the boolean reports `modifiedCount > 0`. -/
def revokeFirstActive (u : UserId) (m : String) (now : Time) :
    List IModelConsent → Bool × List IModelConsent
  | [] => (false, [])
  | r :: rest =>
    if pairMatch u m r && r.revokedAt == none then
      (true, { r with revokedAt := some now } :: rest)
    else
      let p := revokeFirstActive u m now rest
      (p.1, r :: p.2)

/-- `User.updateOne({_id, 'modelConsents.modelName': modelName},
{$set: {'modelConsents.$.revokedAt': now}})`: the positional operator
updates the first embedded entry whose `modelName` matches, whether or not
it is already revoked; if none matches the update is a no-op. -/
def setFirstEmbRevoked (m : String) (now : Time) :
    List EmbeddedConsent → List EmbeddedConsent
  | [] => []
  | e :: rest =>
    if e.modelName == m then { e with revokedAt := some now } :: rest
    else e :: setFirstEmbRevoked m now rest

/-- `revokeModelConsent(userId, modelName)` from `methods/modelConsent.ts`:
conditional update of the collection, unconditional positional update of the
embedded array, returning `result.modifiedCount > 0`. -/
def revokeModelConsent (s : DbState) (u : UserId) (m : String) (now : Time) :
    Bool × DbState :=
  let p := revokeFirstActive u m now s.records
  (p.1,
    { records := p.2
      nextId := s.nextId
      users := fun v =>
        if v = u then setFirstEmbRevoked m now (s.users v) else s.users v })

/-- One call against the ConsentStore, for reasoning about arbitrary
accept/revoke sequences. -/
inductive ConsentOp where
  | accept (u : UserId) (i : ModelConsentInput) (t : Time)
  | revoke (u : UserId) (m : String) (t : Time)

/-- Apply one store call to the state. -/
def applyOp (s : DbState) : ConsentOp → DbState
  | .accept u i t => (acceptModelConsent s u i t).2
  | .revoke u m t => (revokeModelConsent s u m t).2

/-- The empty initial deployment: no consent documents, no embedded
entries. -/
def initState : DbState :=
  { records := [], nextId := 0, users := fun _ => [] }

/-- Run a sequence of store calls from the empty initial state. -/
def runOps (ops : List ConsentOp) : DbState :=
  ops.foldl applyOp initState

/-- All authoritative documents for one `(userId, modelName)` pair. -/
def recordsFor (s : DbState) (u : UserId) (m : String) : List IModelConsent :=
  s.records.filter (pairMatch u m)

/-- The key invariant: at most one authoritative document per
`(userId, modelName)` pair. -/
def AtMostOnePerPair (s : DbState) : Prop :=
  ∀ u m, (recordsFor s u m).length ≤ 1

/-- First embedded entry for a model name (`find` on the embedded array,
the element the positional `$` operator addresses). -/
def embFor (es : List EmbeddedConsent) (m : String) : Option EmbeddedConsent :=
  es.find? (fun e => e.modelName == m)

/-- Stable insertion step for `.sort({ acceptedAt: -1 })`. -/
def insertByAcceptedAtDesc (r : IModelConsent) :
    List IModelConsent → List IModelConsent
  | [] => [r]
  | x :: xs =>
    if r.acceptedAt ≤ x.acceptedAt then x :: insertByAcceptedAtDesc r xs
    else r :: x :: xs

/-- `.sort({ acceptedAt: -1 })`: reorder by `acceptedAt` descending. -/
def sortByAcceptedAtDesc : List IModelConsent → List IModelConsent
  | [] => []
  | x :: xs => insertByAcceptedAtDesc x (sortByAcceptedAtDesc xs)

/-- `getUserConsents(userId, { includeRevoked })` from
`methods/modelConsent.ts`: query `{ userId }`, adding `revokedAt: null`
unless `includeRevoked`, sorted by `acceptedAt` descending. -/
def getUserConsents (s : DbState) (u : UserId) (includeRevoked : Bool) :
    List IModelConsent :=
  sortByAcceptedAtDesc
    (s.records.filter
      (fun r => r.userId == u && (includeRevoked || r.revokedAt == none)))

/-- `getModelConsents(modelName, { includeRevoked })` (admin listing): query
`{ modelName }`, adding `revokedAt: null` unless `includeRevoked`, sorted by
`acceptedAt` descending. -/
def getModelConsents (s : DbState) (m : String) (includeRevoked : Bool) :
    List IModelConsent :=
  sortByAcceptedAtDesc
    (s.records.filter
      (fun r => r.modelName == m && (includeRevoked || r.revokedAt == none)))

/-- `req.query.includeRevoked === 'true'` — the only query value mapped to
`true` is the exact string `'true'`; an absent parameter is `undefined`. -/
def parseIncludeRevoked (q : Option String) : Bool :=
  q == some "true"

/-- `getUserConsentsController`: reads the caller's id and the
`includeRevoked` query parameter and returns the store listing (the 200
body's `consents`). -/
def getUserConsentsController (s : DbState) (u : UserId) (q : Option String) :
    List IModelConsent :=
  getUserConsents s u (parseIncludeRevoked q)

/-- `getModelConsentsController` (admin): 400 when the `modelName` path
parameter is missing, otherwise 200 with the store listing for the parsed
`includeRevoked` flag. -/
def getModelConsentsController (s : DbState) (m : Option String)
    (q : Option String) : Nat × List IModelConsent :=
  match m with
  | none => (400, [])
  | some m => (200, getModelConsents s m (parseIncludeRevoked q))

/-- `revokeConsentController`: 400 when the `modelName` path parameter is
missing; otherwise delegates to `revokeModelConsent` and maps its boolean to
200 (revoked) or 404 (no active consent found). -/
def revokeConsentController (s : DbState) (u : UserId) (m : Option String)
    (now : Time) : Nat × DbState :=
  match m with
  | none => (400, s)
  | some m =>
    let p := revokeModelConsent s u m now
    (if p.1 then 200 else 404, p.2)

/-! ### Model specifications and the client-side gate -/

/-- One entry of `modalInfo.warnings[]`. -/
structure ModalWarning where
  title : String
  description : String
  severity : String
  acknowledgment : String
deriving DecidableEq, Repr

/-- The `modalInfo.costInfo` block. -/
structure CostInfo where
  description : String
  acknowledgment : String
deriving DecidableEq, Repr

/-- The optional `modalInfo` block of a model specification; a specification
is gated iff this block is present. -/
structure ModalInfo where
  intendedUse : Option String
  warnings : Option (List ModalWarning)
  costInfo : Option CostInfo
  modelCardUrl : Option String
  requireAcknowledgment : Option Bool
deriving DecidableEq, Repr

/-- The `preset` of a configured model specification; the identifier fields
are all optional. -/
structure TPreset where
  endpoint : Option String
  model : Option String
  agent_id : Option String
  assistant_id : Option String
deriving DecidableEq, Repr

/-- A configured model specification (`TModelSpec`). -/
structure TModelSpec where
  name : String
  label : Option String
  description : Option String
  modalInfo : Option ModalInfo
  preset : TPreset
deriving DecidableEq, Repr

/-- A conversation slot's target, as read off the conversation object by the
gate (`convo.endpoint`, `convo.model`). -/
structure ChatConvo where
  endpoint : Option String
  model : Option String
deriving DecidableEq, Repr

/-- `getModelSpec(model, endpoint, appConfig)` from
`detectImageGenerationModel`: guard on `appConfig?.modelSpecs?.list`, then
`list.find(spec => spec.preset?.model === model && spec.preset?.endpoint ===
endpoint)`.  No branching on the endpoint kind takes place. -/
def getModelSpec (model endpoint : String) (cfgList : Option (List TModelSpec)) :
    Option TModelSpec :=
  match cfgList with
  | none => none
  | some list =>
    list.find? (fun spec =>
      spec.preset.model == some model && spec.preset.endpoint == some endpoint)

/-- The gate's specification lookup inside `checkModelConsent`
(`useSubmitMessage`): `modelSpecs.find(spec => spec.preset.endpoint ===
convo.endpoint && spec.preset.model === convo.model)`. -/
def findSpecForConvo (specs : List TModelSpec) (c : ChatConvo) :
    Option TModelSpec :=
  specs.find? (fun spec =>
    spec.preset.endpoint == c.endpoint && spec.preset.model == c.model)

/-- `user?.modelConsents?.some(c => c.modelName === name && !c.revokedAt)`:
the cached consent set contains an active entry for `name`.  `none` models a
missing user object or a missing `modelConsents` array (the resulting
`undefined` is falsy). -/
def hasActiveConsentFor (consents : Option (List EmbeddedConsent))
    (name : String) : Bool :=
  match consents with
  | none => false
  | some cs => cs.any (fun c => c.modelName == name && c.revokedAt == none)

/-- `checkModelConsent(convo)` from `useSubmitMessage`: a missing
conversation passes; resolve the slot's specification; when it has
`modalInfo` and a truthy `name`, require an active cached consent, else
dispatch a `review-model-terms` event carrying the spec and fail.  The
second component collects the dispatched events. -/
def checkModelConsent (specs : List TModelSpec)
    (consents : Option (List EmbeddedConsent)) (convo : Option ChatConvo) :
    Bool × List TModelSpec :=
  match convo with
  | none => (true, [])
  | some c =>
    match findSpecForConvo specs c with
    | none => (true, [])
    | some spec =>
      if spec.modalInfo.isSome && spec.name != "" then
        if hasActiveConsentFor consents spec.name then (true, [])
        else (false, [spec])
      else (true, [])

/-- The truthiness test `addedIndex && activeConvos[addedIndex] &&
addedConvo` guarding the second slot (an out-of-range index yields a falsy
`undefined`, modelled as the falsy `""`). -/
def hasAddedConvo (addedIndex : Nat) (activeConvos : List String)
    (addedConvo : Option ChatConvo) : Bool :=
  addedIndex != 0 && (activeConvos.getD addedIndex "") != "" &&
    addedConvo.isSome

/-- A dispatched outbound chat call: `ask` for the root slot,
`askAdditional` for the added slot. -/
inductive SlotCall where
  | root
  | added
deriving DecidableEq, Repr

/-- Observable outcome of `submitMessage`: which outbound chat calls were
issued, and which `review-model-terms` events were dispatched. -/
structure SubmitOutcome where
  calls : List SlotCall
  events : List TModelSpec
deriving DecidableEq, Repr

/-- `submitMessage(data)` from `useSubmitMessage`, restricted to its
consent-relevant observable behavior: missing data sends nothing; the root
slot's consent check runs first and aborts everything on failure; the added
slot's check runs only when the added slot is active and likewise aborts
everything; otherwise `ask` fires and, when the added slot is active,
`askAdditional` fires as well. -/
def submitMessage (specs : List TModelSpec)
    (consents : Option (List EmbeddedConsent)) (conversation : Option ChatConvo)
    (addedConvo : Option ChatConvo) (addedIndex : Nat)
    (activeConvos : List String) (data : Option String) : SubmitOutcome :=
  match data with
  | none => { calls := [], events := [] }
  | some _ =>
    let rootCheck := checkModelConsent specs consents conversation
    if !rootCheck.1 then { calls := [], events := rootCheck.2 }
    else
      let hasAdded := hasAddedConvo addedIndex activeConvos addedConvo
      let addedCheck :=
        if hasAdded then checkModelConsent specs consents addedConvo
        else (true, [])
      if !addedCheck.1 then { calls := [], events := addedCheck.2 }
      else
        { calls := SlotCall.root :: (if hasAdded then [SlotCall.added] else [])
          events := [] }

/-! ### The `modalInfo`-driven consent modal -/

/-- `requireAcknowledgment = modalInfo?.requireAcknowledgment !== false`
(defaults to `true`, also when `modalInfo` is absent). -/
def requireAckOf (mi : Option ModalInfo) : Bool :=
  !((mi.bind (fun m => m.requireAcknowledgment)) == some false)

/-- `acknowledgmentKeys`: one key `warning-<index>` per entry of
`modalInfo?.warnings`, plus `costInfo` when `modalInfo?.costInfo` is
present. -/
def acknowledgmentKeys (mi : Option ModalInfo) : List String :=
  match mi with
  | none => []
  | some m =>
    ((List.range (m.warnings.getD []).length).map
      (fun i => "warning-" ++ toString i)) ++
    (if m.costInfo.isSome then ["costInfo"] else [])

/-- `allAcknowledged`: `true` outright when `requireAcknowledgment` is off,
otherwise every checklist key must be checked.  The checkbox record is
modelled as a total boolean function (a missing key reads as the falsy
`undefined`). -/
def allAcknowledged (mi : Option ModalInfo) (acks : String → Bool) : Bool :=
  if !requireAckOf mi then true
  else (acknowledgmentKeys mi).all (fun k => acks k)

/-- The Accept control's enablement: the button carries
`disabled={requireAcknowledgment && !allAcknowledged}`. -/
def acceptButtonEnabled (mi : Option ModalInfo) (acks : String → Bool) : Bool :=
  !(requireAckOf mi && !allAcknowledged mi acks)

/-- Observable outcome of the modal's `handleAccept`: whether the modal is
still open, whether the checklist was reset, and the accept operations
issued (by model name). -/
structure AcceptOutcome where
  modalOpen : Bool
  acksReset : Bool
  acceptCalls : List String
deriving DecidableEq, Repr

/-- `handleAccept` from the `modalInfo`-driven `ModelInfoModal`: bail out
when acknowledgment is required and incomplete; otherwise reset the
checklist and close (`onOpenChange(false)`).  The body contains no call to
the accept mutation, so `acceptCalls` is empty on every path. -/
def handleAccept (mi : Option ModalInfo) (acks : String → Bool) :
    AcceptOutcome :=
  if requireAckOf mi && !allAcknowledged mi acks then
    { modalOpen := true, acksReset := false, acceptCalls := [] }
  else
    { modalOpen := false, acksReset := true, acceptCalls := [] }

/-- The query-cache keys invalidated by `useAcceptModelConsentMutation`'s
`onSuccess` handler (`QueryKeys.modelConsents` and `QueryKeys.user`). -/
def acceptMutationInvalidatedKeys : List String :=
  ["modelConsents", "user"]

/-- Per-user well-formedness of the denormalized copy: no two embedded
entries share a model name. -/
def EmbNamesNodup (s : DbState) : Prop :=
  ∀ u, (((s.users u).map (fun e => e.modelName))).Nodup

/-- A slot is blocked by the gate: it resolves to a specification with
`modalInfo` present and a nonempty `name` for which the cached consent set
has no active entry. -/
def GateBlocked (specs : List TModelSpec)
    (consents : Option (List EmbeddedConsent)) (convo : Option ChatConvo) :
    Prop :=
  ∃ c spec, convo = some c ∧ findSpecForConvo specs c = some spec ∧
    spec.modalInfo.isSome = true ∧ spec.name ≠ "" ∧
    hasActiveConsentFor consents spec.name = false

/-- Rewrite a specification's `agent_id`/`assistant_id` preset fields,
leaving `name`, `modalInfo`, `preset.endpoint` and `preset.model`
untouched. -/
def setSpecIds (aid asid : Option String) (spec : TModelSpec) : TModelSpec :=
  { spec with
    preset := { spec.preset with agent_id := aid, assistant_id := asid } }

/-- A gated specification (`modalInfo` present) whose `name` is the empty
string; expressible in configuration since `TModelSpec.name` is an
arbitrary string. -/
def gatedNamelessSpec : TModelSpec :=
  { name := ""
    label := none
    description := none
    modalInfo := some
      { intendedUse := none
        warnings := some [⟨"t", "d", "warning", "a"⟩]
        costInfo := none
        modelCardUrl := none
        requireAcknowledgment := none }
    preset :=
      { endpoint := some "openAI"
        model := some "gpt-4"
        agent_id := none
        assistant_id := none } }

/-- A gated specification with a proper name, used for concrete gate
scenarios. -/
def gatedClaudeSpec : TModelSpec :=
  { name := "claude-x"
    label := some "Claude X"
    description := none
    modalInfo := some
      { intendedUse := some "research"
        warnings := some [⟨"w", "d", "critical", "a"⟩]
        costInfo := none
        modelCardUrl := none
        requireAcknowledgment := some true }
    preset :=
      { endpoint := some "bedrock"
        model := some "claude-3"
        agent_id := none
        assistant_id := none } }

/-- An ungated specification (no `modalInfo`). -/
def ungatedGptSpec : TModelSpec :=
  { name := "gpt-basic"
    label := none
    description := none
    modalInfo := none
    preset :=
      { endpoint := some "openAI"
        model := some "gpt-4o"
        agent_id := none
        assistant_id := none } }

/-- An agent-backed specification whose `preset.model` differs from its
`preset.agent_id`. -/
def agentSpecExample : TModelSpec :=
  { name := "my-agent"
    label := some "My Agent"
    description := none
    modalInfo := none
    preset :=
      { endpoint := some "agents"
        model := some "gpt-4o"
        agent_id := some "agent_abc"
        assistant_id := none } }

/-- A `modalInfo` block with one warning that must be acknowledged. -/
def oneWarningModalInfo : ModalInfo :=
  { intendedUse := none
    warnings := some [⟨"t", "d", "critical", "a"⟩]
    costInfo := none
    modelCardUrl := none
    requireAcknowledgment := some true }

/-! ### Helper lemmas about the store operations -/

lemma pairMatch_applyAcceptSet (v : UserId) (n : String) (i : ModelConsentInput)
    (now : Time) (r : IModelConsent) :
    pairMatch v n (applyAcceptSet i now r) = pairMatch v n r := by
  simp [pairMatch, applyAcceptSet]

lemma pairMatch_setRevoked (v : UserId) (n : String) (now : Time)
    (r : IModelConsent) :
    pairMatch v n { r with revokedAt := some now } = pairMatch v n r := by
  simp [pairMatch]

lemma pairMatch_unique {u v : UserId} {m n : String} {r : IModelConsent}
    (h1 : pairMatch u m r = true) (h2 : pairMatch v n r = true) :
    v = u ∧ n = m := by
  simp [pairMatch] at h1 h2
  exact ⟨h2.1.symm.trans h1.1, h2.2.symm.trans h1.2⟩

lemma pairMatch_freshConsent (u : UserId) (i : ModelConsentInput) (now : Time)
    (fresh : Nat) :
    pairMatch u i.modelName (freshConsent u i now fresh) = true := by
  simp [pairMatch, freshConsent]

lemma pairMatch_freshConsent_ne {u v : UserId} {n : String}
    {i : ModelConsentInput} (now : Time) (fresh : Nat)
    (h : ¬(v = u ∧ n = i.modelName)) :
    pairMatch v n (freshConsent u i now fresh) = false := by
  rw [Bool.eq_false_iff]
  intro hc
  simp [pairMatch, freshConsent] at hc
  exact h ⟨hc.1.symm, hc.2.symm⟩

/-- Effect of the upsert on the documents of the upserted pair: the first
document is updated in place, or a fresh one is created. -/
lemma upsertConsent_filter_pair (u : UserId) (i : ModelConsentInput)
    (now : Time) (fresh : Nat) (l : List IModelConsent) :
    (upsertConsent u i now fresh l).2.filter (pairMatch u i.modelName) =
      match l.filter (pairMatch u i.modelName) with
      | [] => [freshConsent u i now fresh]
      | r :: rest => applyAcceptSet i now r :: rest := by
  induction l with
  | nil =>
    simp [upsertConsent, List.filter, pairMatch_freshConsent]
  | cons r rest ih =>
    by_cases h : pairMatch u i.modelName r = true
    · simp [upsertConsent, h, List.filter_cons, pairMatch_applyAcceptSet]
    · have h' : pairMatch u i.modelName r = false := by
        simpa using h
      simp [upsertConsent, h', List.filter_cons, ih]

/-- The upsert leaves the documents of every other pair untouched. -/
lemma upsertConsent_filter_ne (u v : UserId) (n : String)
    (i : ModelConsentInput) (now : Time) (fresh : Nat) (l : List IModelConsent)
    (h : ¬(v = u ∧ n = i.modelName)) :
    (upsertConsent u i now fresh l).2.filter (pairMatch v n) =
      l.filter (pairMatch v n) := by
  induction l with
  | nil =>
    simp [upsertConsent, List.filter, pairMatch_freshConsent_ne now fresh h]
  | cons r rest ih =>
    by_cases hp : pairMatch u i.modelName r = true
    · have hvn : pairMatch v n r = false := by
        rw [Bool.eq_false_iff]
        intro hc
        exact h (pairMatch_unique hp hc)
      simp [upsertConsent, hp, List.filter_cons, pairMatch_applyAcceptSet, hvn]
    · have hp' : pairMatch u i.modelName r = false := by
        simpa using hp
      simp [upsertConsent, hp', List.filter_cons, ih]

/-- The conditional revoke commutes with restriction to the revoked pair. -/
lemma revokeFirstActive_filter_pair (u : UserId) (m : String) (now : Time)
    (l : List IModelConsent) :
    (revokeFirstActive u m now l).1 =
        (revokeFirstActive u m now (l.filter (pairMatch u m))).1 ∧
      (revokeFirstActive u m now l).2.filter (pairMatch u m) =
        (revokeFirstActive u m now (l.filter (pairMatch u m))).2 := by
  induction l with
  | nil => simp [revokeFirstActive, List.filter]
  | cons r rest ih =>
    by_cases hp : pairMatch u m r = true
    · by_cases ha : r.revokedAt = none
      · simp [revokeFirstActive, hp, ha, List.filter_cons, pairMatch_setRevoked]
      · have ha' : (r.revokedAt == none) = false := by
          rw [Bool.eq_false_iff]
          simpa using ha
        simp [revokeFirstActive, hp, ha', List.filter_cons, ih]
    · have hp' : pairMatch u m r = false := by
        simpa using hp
      simp [revokeFirstActive, hp', List.filter_cons, ih]

/-- The conditional revoke leaves the documents of every other pair
untouched. -/
lemma revokeFirstActive_filter_ne (u v : UserId) (m n : String) (now : Time)
    (l : List IModelConsent) (h : ¬(v = u ∧ n = m)) :
    (revokeFirstActive u m now l).2.filter (pairMatch v n) =
      l.filter (pairMatch v n) := by
  induction l with
  | nil => simp [revokeFirstActive]
  | cons r rest ih =>
    by_cases hp : pairMatch u m r = true
    · by_cases ha : r.revokedAt = none
      · have hvn : pairMatch v n r = false := by
          rw [Bool.eq_false_iff]
          intro hc
          exact h (pairMatch_unique hp hc)
        simp [revokeFirstActive, hp, ha, List.filter_cons,
          pairMatch_setRevoked, hvn]
      · have ha' : (r.revokedAt == none) = false := by
          rw [Bool.eq_false_iff]
          simpa using ha
        simp [revokeFirstActive, hp, ha', List.filter_cons, ih]
    · have hp' : pairMatch u m r = false := by
        simpa using hp
      simp [revokeFirstActive, hp', List.filter_cons, ih]

/-- The conditional revoke never inserts or deletes documents. -/
lemma revokeFirstActive_length (u : UserId) (m : String) (now : Time)
    (l : List IModelConsent) :
    (revokeFirstActive u m now l).2.length = l.length := by
  induction l with
  | nil => simp [revokeFirstActive]
  | cons r rest ih =>
    by_cases hc : (pairMatch u m r && r.revokedAt == none) = true
    · simp [revokeFirstActive, hc]
    · have hc' : (pairMatch u m r && r.revokedAt == none) = false := by
        simpa using hc
      simp [revokeFirstActive, hc', ih]

/-- With no document for the pair at all, the conditional revoke is an
identity returning `false`. -/
lemma revokeFirstActive_no_match (u : UserId) (m : String) (now : Time)
    (l : List IModelConsent) (h : ∀ r ∈ l, pairMatch u m r = false) :
    revokeFirstActive u m now l = (false, l) := by
  induction l with
  | nil => simp [revokeFirstActive]
  | cons r rest ih =>
    have hr : pairMatch u m r = false := h r (List.mem_cons_self r rest)
    have hrest : ∀ x ∈ rest, pairMatch u m x = false := by
      intro x hx
      exact h x (List.mem_cons_of_mem r hx)
    simp [revokeFirstActive, hr, ih hrest]

/-! ### Helper lemmas about the embedded array -/

/-- The positional revoke never changes which model names appear. -/
lemma setFirstEmbRevoked_map_names (m : String) (now : Time)
    (es : List EmbeddedConsent) :
    (setFirstEmbRevoked m now es).map (fun e => e.modelName) =
      es.map (fun e => e.modelName) := by
  induction es with
  | nil => simp [setFirstEmbRevoked]
  | cons e rest ih =>
    by_cases he : (e.modelName == m) = true
    · simp [setFirstEmbRevoked, he]
    · have he' : (e.modelName == m) = false := by simpa using he
      simp [setFirstEmbRevoked, he', ih]

/-- The positional revoke rewrites exactly the entry that `embFor` (the
first match) designates. -/
lemma embFor_setFirstEmbRevoked (m : String) (now : Time)
    (es : List EmbeddedConsent) :
    embFor (setFirstEmbRevoked m now es) m =
      (embFor es m).map (fun e => { e with revokedAt := some now }) := by
  induction es with
  | nil => simp [setFirstEmbRevoked, embFor]
  | cons e rest ih =>
    by_cases he : (e.modelName == m) = true
    · simp [setFirstEmbRevoked, he, embFor, List.find?_cons_of_pos _ he,
        List.find?_cons_of_pos]
    · have he' : (e.modelName == m) = false := by simpa using he
      simp only [setFirstEmbRevoked, he', Bool.false_eq_true, if_false]
      simpa [embFor, List.find?_cons, he'] using ih

/-- With no embedded entry for the model name, the positional revoke is a
no-op. -/
lemma setFirstEmbRevoked_no_match (m : String) (now : Time)
    (es : List EmbeddedConsent) (h : ∀ e ∈ es, (e.modelName == m) = false) :
    setFirstEmbRevoked m now es = es := by
  induction es with
  | nil => simp [setFirstEmbRevoked]
  | cons e rest ih =>
    have he : (e.modelName == m) = false := h e (List.mem_cons_self e rest)
    have hrest : ∀ x ∈ rest, (x.modelName == m) = false := by
      intro x hx
      exact h x (List.mem_cons_of_mem e hx)
    simp [setFirstEmbRevoked, he, ih hrest]

/-! ### State-level characterizations -/

/-- `recordsFor` after an accept, at the accepted pair. -/
lemma recordsFor_accept_pair (s : DbState) (u : UserId)
    (i : ModelConsentInput) (t : Time) :
    recordsFor (acceptModelConsent s u i t).2 u i.modelName =
      match recordsFor s u i.modelName with
      | [] => [freshConsent u i t s.nextId]
      | r :: rest => applyAcceptSet i t r :: rest := by
  simpa [recordsFor, acceptModelConsent] using
    upsertConsent_filter_pair u i t s.nextId s.records

/-- `recordsFor` after an accept, at any other pair. -/
lemma recordsFor_accept_ne (s : DbState) (u v : UserId) (n : String)
    (i : ModelConsentInput) (t : Time) (h : ¬(v = u ∧ n = i.modelName)) :
    recordsFor (acceptModelConsent s u i t).2 v n = recordsFor s v n := by
  simpa [recordsFor, acceptModelConsent] using
    upsertConsent_filter_ne u v n i t s.nextId s.records h

/-- `recordsFor` after a revoke, at the revoked pair. -/
lemma recordsFor_revoke_pair (s : DbState) (u : UserId) (m : String)
    (t : Time) :
    recordsFor (revokeModelConsent s u m t).2 u m =
      (revokeFirstActive u m t (recordsFor s u m)).2 := by
  simpa [recordsFor, revokeModelConsent] using
    (revokeFirstActive_filter_pair u m t s.records).2

/-- The boolean returned by a revoke is decided by the documents of the
revoked pair alone. -/
lemma revoke_fst_eq (s : DbState) (u : UserId) (m : String) (t : Time) :
    (revokeModelConsent s u m t).1 =
      (revokeFirstActive u m t (recordsFor s u m)).1 := by
  simpa [recordsFor, revokeModelConsent] using
    (revokeFirstActive_filter_pair u m t s.records).1

/-- `recordsFor` after a revoke, at any other pair. -/
lemma recordsFor_revoke_ne (s : DbState) (u v : UserId) (m n : String)
    (t : Time) (h : ¬(v = u ∧ n = m)) :
    recordsFor (revokeModelConsent s u m t).2 v n = recordsFor s v n := by
  simpa [recordsFor, revokeModelConsent] using
    revokeFirstActive_filter_ne u v m n t s.records h

/-- The embedded array of the accepting user after an accept. -/
lemma users_accept_self (s : DbState) (u : UserId) (i : ModelConsentInput)
    (t : Time) :
    (acceptModelConsent s u i t).2.users u =
      ((s.users u).filter (fun e => !(e.modelName == i.modelName))) ++
        [{ modelName := i.modelName
           modelLabel := i.modelLabel.getD ""
           acceptedAt := (upsertConsent u i t s.nextId s.records).1.acceptedAt
           revokedAt := none }] := by
  simp [acceptModelConsent]

/-- An accept leaves every other user's embedded array unchanged. -/
lemma users_accept_other (s : DbState) (u v : UserId) (i : ModelConsentInput)
    (t : Time) (h : v ≠ u) :
    (acceptModelConsent s u i t).2.users v = s.users v := by
  simp [acceptModelConsent, h]

/-- The embedded array of the revoking user after a revoke. -/
lemma users_revoke_self (s : DbState) (u : UserId) (m : String) (t : Time) :
    (revokeModelConsent s u m t).2.users u =
      setFirstEmbRevoked m t (s.users u) := by
  simp [revokeModelConsent]

/-- A revoke leaves every other user's embedded array unchanged. -/
lemma users_revoke_other (s : DbState) (u v : UserId) (m : String) (t : Time)
    (h : v ≠ u) :
    (revokeModelConsent s u m t).2.users v = s.users v := by
  simp [revokeModelConsent, h]

/-! ### Invariant preservation -/

lemma atMostOne_initState : AtMostOnePerPair initState := by
  intro u m
  simp [recordsFor, initState]

lemma atMostOne_applyOp (s : DbState) (h : AtMostOnePerPair s)
    (op : ConsentOp) : AtMostOnePerPair (applyOp s op) := by
  cases op with
  | accept u i t =>
    intro v n
    by_cases hvn : v = u ∧ n = i.modelName
    · obtain ⟨hv, hn⟩ := hvn
      simp only [applyOp]
      rw [hv, hn, recordsFor_accept_pair]
      have hlen := h u i.modelName
      cases hrec : recordsFor s u i.modelName with
      | nil => simp
      | cons r rest =>
        rw [hrec] at hlen
        simp only [List.length_cons] at hlen
        have hrest : rest.length = 0 := by omega
        simp [hrest]
    · simp only [applyOp]
      rw [recordsFor_accept_ne s u v n i t hvn]
      exact h v n
  | revoke u m t =>
    intro v n
    by_cases hvn : v = u ∧ n = m
    · obtain ⟨hv, hn⟩ := hvn
      simp only [applyOp]
      rw [hv, hn, recordsFor_revoke_pair, revokeFirstActive_length]
      exact h u m
    · simp only [applyOp]
      rw [recordsFor_revoke_ne s u v m n t hvn]
      exact h v n

lemma atMostOne_foldl (ops : List ConsentOp) (s : DbState)
    (h : AtMostOnePerPair s) : AtMostOnePerPair (ops.foldl applyOp s) := by
  induction ops generalizing s with
  | nil => simpa using h
  | cons op rest ih =>
    rw [List.foldl_cons]
    exact ih (applyOp s op) (atMostOne_applyOp s h op)

lemma embNodup_initState : EmbNamesNodup initState := by
  intro u
  simp [initState]

lemma embNodup_applyOp (s : DbState) (h : EmbNamesNodup s) (op : ConsentOp) :
    EmbNamesNodup (applyOp s op) := by
  cases op with
  | accept u i t =>
    intro v
    by_cases hv : v = u
    · subst hv
      rw [applyOp, users_accept_self]
      rw [List.map_append]
      apply List.Nodup.append
      · exact ((h v).sublist
          (((s.users v).filter_sublist).map (fun e => e.modelName)))
      · simp
      · intro x hx hx'
        simp only [List.map_cons, List.map_nil, List.mem_singleton] at hx'
        obtain ⟨e, he, hxe⟩ := List.mem_map.mp hx
        have hne := List.of_mem_filter he
        simp only [Bool.not_eq_true', beq_eq_false_iff_ne, ne_eq] at hne
        exact hne (hxe.trans hx')
    · rw [applyOp, users_accept_other s u v i t hv]
      exact h v
  | revoke u m t =>
    intro v
    by_cases hv : v = u
    · subst hv
      rw [applyOp, users_revoke_self, setFirstEmbRevoked_map_names]
      exact h v
    · rw [applyOp, users_revoke_other s u v m t hv]
      exact h v

lemma embNodup_foldl (ops : List ConsentOp) (s : DbState)
    (h : EmbNamesNodup s) : EmbNamesNodup (ops.foldl applyOp s) := by
  induction ops generalizing s with
  | nil => simpa using h
  | cons op rest ih =>
    rw [List.foldl_cons]
    exact ih (applyOp s op) (embNodup_applyOp s h op)

/-- Sorting never changes which documents are listed. -/
lemma mem_insertByAcceptedAtDesc (r x : IModelConsent)
    (l : List IModelConsent) :
    x ∈ insertByAcceptedAtDesc r l ↔ x = r ∨ x ∈ l := by
  induction l with
  | nil => simp [insertByAcceptedAtDesc]
  | cons y ys ih =>
    by_cases hc : r.acceptedAt ≤ y.acceptedAt
    · simp only [insertByAcceptedAtDesc, if_pos hc, List.mem_cons, ih]
      tauto
    · simp only [insertByAcceptedAtDesc, if_neg hc, List.mem_cons]

lemma mem_sortByAcceptedAtDesc (x : IModelConsent) (l : List IModelConsent) :
    x ∈ sortByAcceptedAtDesc l ↔ x ∈ l := by
  induction l with
  | nil => simp [sortByAcceptedAtDesc]
  | cons y ys ih =>
    simp only [sortByAcceptedAtDesc, mem_insertByAcceptedAtDesc, ih,
      List.mem_cons]

/-! ### The claims -/

/-- C1: for every `userId` and `modelName`, two consecutive
`acceptModelConsent` calls for the same pair leave exactly one active
authoritative `ConsentRecord` for that pair, whose `acceptedAt`,
`modelLabel` (via the `input.modelLabel || ''` defaulting) and `metadata`
are exactly the values supplied by the second call — last write wins, no
merge with prior values, no duplicate documents. -/
theorem acceptModelConsent_twice_last_write_wins (s : DbState)
    (h : AtMostOnePerPair s) (u : UserId) (i1 i2 : ModelConsentInput)
    (t1 t2 : Time) (hm : i1.modelName = i2.modelName) :
    (recordsFor (acceptModelConsent (acceptModelConsent s u i1 t1).2 u i2
        t2).2 u i2.modelName).length = 1 ∧
    ∀ r ∈ recordsFor (acceptModelConsent (acceptModelConsent s u i1 t1).2 u
        i2 t2).2 u i2.modelName,
      r.revokedAt = none ∧ r.acceptedAt = t2 ∧
        r.modelLabel = i2.modelLabel.getD "" ∧ r.metadata = i2.metadata := by
  have h1 : ∃ x, recordsFor (acceptModelConsent s u i1 t1).2 u i2.modelName
      = [x] := by
    rw [← hm, recordsFor_accept_pair]
    have hlen := h u i1.modelName
    cases hrec : recordsFor s u i1.modelName with
    | nil => exact ⟨_, rfl⟩
    | cons r rest =>
      rw [hrec] at hlen
      simp only [List.length_cons] at hlen
      have hz : rest.length = 0 := by omega
      rw [List.length_eq_zero] at hz
      subst hz
      exact ⟨_, rfl⟩
  obtain ⟨x, hx⟩ := h1
  rw [recordsFor_accept_pair, hx]
  refine ⟨by simp, ?_⟩
  intro r hr
  simp only [List.mem_singleton] at hr
  subst hr
  simp [applyAcceptSet]

/-- Witness for C1 at a concrete input. -/
theorem acceptModelConsent_twice_last_write_wins_witness :
    (recordsFor (acceptModelConsent (acceptModelConsent initState "u1"
        ⟨"m1", some "A", some "x"⟩ 3).2 "u1" ⟨"m1", some "B", none⟩ 7).2
      "u1" "m1").length = 1 ∧
    ∀ r ∈ recordsFor (acceptModelConsent (acceptModelConsent initState "u1"
        ⟨"m1", some "A", some "x"⟩ 3).2 "u1" ⟨"m1", some "B", none⟩ 7).2
      "u1" "m1",
      r.revokedAt = none ∧ r.acceptedAt = 7 ∧
        r.modelLabel = "B" ∧ r.metadata = none :=
  acceptModelConsent_twice_last_write_wins initState atMostOne_initState
    "u1" ⟨"m1", some "A", some "x"⟩ ⟨"m1", some "B", none⟩ 3 7 rfl

/-- C2: across any sequence of accept/revoke store calls, every
`(userId, modelName)` pair has at most one authoritative `ConsentRecord`;
and an accept issued when a record for the pair already exists (for
instance after a prior revoke) updates that same document in place —
preserving its `id` and resetting `revokedAt` to `null` — rather than
creating a second record. -/
theorem accept_after_revoke_reactivates_same_record (ops : List ConsentOp) :
    AtMostOnePerPair (runOps ops) ∧
    ∀ (u : UserId) (i : ModelConsentInput) (t : Time) (r : IModelConsent),
      recordsFor (runOps ops) u i.modelName = [r] →
      recordsFor (applyOp (runOps ops) (ConsentOp.accept u i t)) u
          i.modelName =
        [{ r with
            modelLabel := i.modelLabel.getD ""
            acceptedAt := t
            revokedAt := none
            metadata := i.metadata }] := by
  refine ⟨atMostOne_foldl ops initState atMostOne_initState, ?_⟩
  intro u i t r hr
  simp only [applyOp]
  rw [recordsFor_accept_pair, hr]
  simp [applyAcceptSet]

/-- Witness for C2 at a concrete input: accept, revoke, then accept again
re-activates the `id := 0` document. -/
theorem accept_after_revoke_reactivates_same_record_witness :
    AtMostOnePerPair (runOps [ConsentOp.accept "u1" ⟨"m1", none, none⟩ 0,
      ConsentOp.revoke "u1" "m1" 1]) ∧
    recordsFor (applyOp (runOps [ConsentOp.accept "u1" ⟨"m1", none, none⟩ 0,
        ConsentOp.revoke "u1" "m1" 1])
        (ConsentOp.accept "u1" ⟨"m1", some "L", none⟩ 5)) "u1" "m1" =
      [{ id := 0, userId := "u1", modelName := "m1", modelLabel := "L",
         acceptedAt := 5, revokedAt := none, metadata := none }] :=
  ⟨(accept_after_revoke_reactivates_same_record _).1,
    (accept_after_revoke_reactivates_same_record
        [ConsentOp.accept "u1" ⟨"m1", none, none⟩ 0,
          ConsentOp.revoke "u1" "m1" 1]).2
      "u1" ⟨"m1", some "L", none⟩ 5
      { id := 0, userId := "u1", modelName := "m1", modelLabel := "",
        acceptedAt := 0, revokedAt := some 1, metadata := none }
      (by decide)⟩

/-- C3: for every sequence of accept/revoke store calls, the embedded
`modelConsents` array on a user document never contains two entries with
the same `modelName`. -/
theorem embedded_modelConsents_names_nodup (ops : List ConsentOp)
    (u : UserId) :
    (((runOps ops).users u).map (fun e => e.modelName)).Nodup :=
  embNodup_foldl ops initState embNodup_initState u

/-- C8 counterexample: accept at time 0, revoke at time 1, revoke again at
time 2.  The second revoke duly returns `false`, but it *does* alter the
embedded entry's `revokedAt` further, overwriting `some 1` with `some 2`
(the positional embedded update has no `revokedAt: null` guard), so the
claim that neither copy changes is false at this input. -/
theorem revoke_twice_alters_embedded_counterexample :
    (revokeModelConsent (revokeModelConsent (acceptModelConsent initState
        "u1" ⟨"m1", none, none⟩ 0).2 "u1" "m1" 1).2 "u1" "m1" 2).1 = false ∧
    (revokeModelConsent (acceptModelConsent initState "u1" ⟨"m1", none,
        none⟩ 0).2 "u1" "m1" 1).2.users "u1" =
      [{ modelName := "m1", modelLabel := "", acceptedAt := 0,
         revokedAt := some 1 }] ∧
    (revokeModelConsent (revokeModelConsent (acceptModelConsent initState
        "u1" ⟨"m1", none, none⟩ 0).2 "u1" "m1" 1).2 "u1" "m1" 2).2.users
        "u1" =
      [{ modelName := "m1", modelLabel := "", acceptedAt := 0,
         revokedAt := some 2 }] := by
  decide

/-- C8 (amended): with a single active record and an embedded entry for the
pair, the first revoke returns `true` and stamps `revokedAt` on both
copies; the second returns `false` and leaves the authoritative record
unchanged, but overwrites the embedded entry's `revokedAt` with the second
call's timestamp. -/
theorem revokeModelConsent_twice (s : DbState) (u : UserId) (m : String)
    (r : IModelConsent) (e : EmbeddedConsent) (t1 t2 : Time)
    (h1 : recordsFor s u m = [r]) (h2 : r.revokedAt = none)
    (h3 : embFor (s.users u) m = some e) :
    (revokeModelConsent s u m t1).1 = true ∧
    (revokeModelConsent (revokeModelConsent s u m t1).2 u m t2).1 = false ∧
    recordsFor (revokeModelConsent s u m t1).2 u m =
      [{ r with revokedAt := some t1 }] ∧
    recordsFor (revokeModelConsent (revokeModelConsent s u m t1).2 u m
        t2).2 u m = [{ r with revokedAt := some t1 }] ∧
    embFor ((revokeModelConsent s u m t1).2.users u) m =
      some { e with revokedAt := some t1 } ∧
    embFor ((revokeModelConsent (revokeModelConsent s u m t1).2 u m
        t2).2.users u) m = some { e with revokedAt := some t2 } := by
  have hr_mem : r ∈ recordsFor s u m := by
    rw [h1]
    exact List.mem_singleton_self r
  have hpm : pairMatch u m r = true := List.of_mem_filter hr_mem
  have hfst1 : (revokeModelConsent s u m t1).1 = true := by
    rw [revoke_fst_eq, h1]
    simp [revokeFirstActive, hpm, h2]
  have hrec1 : recordsFor (revokeModelConsent s u m t1).2 u m =
      [{ r with revokedAt := some t1 }] := by
    rw [recordsFor_revoke_pair, h1]
    simp [revokeFirstActive, hpm, h2]
  have hfst2 : (revokeModelConsent (revokeModelConsent s u m t1).2 u m
      t2).1 = false := by
    rw [revoke_fst_eq, hrec1]
    simp [revokeFirstActive, pairMatch_setRevoked]
  have hrec2 : recordsFor (revokeModelConsent (revokeModelConsent s u m
      t1).2 u m t2).2 u m = [{ r with revokedAt := some t1 }] := by
    rw [recordsFor_revoke_pair, hrec1]
    simp [revokeFirstActive, pairMatch_setRevoked]
  have hemb1 : embFor ((revokeModelConsent s u m t1).2.users u) m =
      some { e with revokedAt := some t1 } := by
    rw [users_revoke_self, embFor_setFirstEmbRevoked, h3]
    simp
  have hemb2 : embFor ((revokeModelConsent (revokeModelConsent s u m
      t1).2 u m t2).2.users u) m = some { e with revokedAt := some t2 } := by
    rw [users_revoke_self, embFor_setFirstEmbRevoked, hemb1]
    simp
  exact ⟨hfst1, hfst2, hrec1, hrec2, hemb1, hemb2⟩

/-- Witness for the amended C8 at a concrete input. -/
theorem revokeModelConsent_twice_witness :
    (revokeModelConsent (acceptModelConsent initState "u1" ⟨"m1", none,
        none⟩ 0).2 "u1" "m1" 1).1 = true ∧
    (revokeModelConsent (revokeModelConsent (acceptModelConsent initState
        "u1" ⟨"m1", none, none⟩ 0).2 "u1" "m1" 1).2 "u1" "m1" 2).1 = false ∧
    recordsFor (revokeModelConsent (acceptModelConsent initState "u1"
        ⟨"m1", none, none⟩ 0).2 "u1" "m1" 1).2 "u1" "m1" =
      [{ id := 0, userId := "u1", modelName := "m1", modelLabel := "",
         acceptedAt := 0, revokedAt := some 1, metadata := none }] ∧
    recordsFor (revokeModelConsent (revokeModelConsent (acceptModelConsent
        initState "u1" ⟨"m1", none, none⟩ 0).2 "u1" "m1" 1).2 "u1" "m1"
        2).2 "u1" "m1" =
      [{ id := 0, userId := "u1", modelName := "m1", modelLabel := "",
         acceptedAt := 0, revokedAt := some 1, metadata := none }] ∧
    embFor ((revokeModelConsent (acceptModelConsent initState "u1" ⟨"m1",
        none, none⟩ 0).2 "u1" "m1" 1).2.users "u1") "m1" =
      some { modelName := "m1", modelLabel := "", acceptedAt := 0,
             revokedAt := some 1 } ∧
    embFor ((revokeModelConsent (revokeModelConsent (acceptModelConsent
        initState "u1" ⟨"m1", none, none⟩ 0).2 "u1" "m1" 1).2 "u1" "m1"
        2).2.users "u1") "m1" =
      some { modelName := "m1", modelLabel := "", acceptedAt := 0,
             revokedAt := some 2 } :=
  revokeModelConsent_twice (acceptModelConsent initState "u1" ⟨"m1", none,
      none⟩ 0).2 "u1" "m1"
    { id := 0, userId := "u1", modelName := "m1", modelLabel := "",
      acceptedAt := 0, revokedAt := none, metadata := none }
    { modelName := "m1", modelLabel := "", acceptedAt := 0,
      revokedAt := none }
    1 2 (by decide) rfl (by decide)

/-- C9: revoking a pair that was never accepted (no authoritative document
and no embedded entry) returns `false`, changes no stored state, and the
revoke handler surfaces this as HTTP 404. -/
theorem revoke_without_prior_accept (s : DbState) (u : UserId) (m : String)
    (t : Time) (h1 : recordsFor s u m = [])
    (h2 : embFor (s.users u) m = none) :
    (revokeModelConsent s u m t).1 = false ∧
    (revokeModelConsent s u m t).2.records = s.records ∧
    (∀ v, (revokeModelConsent s u m t).2.users v = s.users v) ∧
    (revokeConsentController s u (some m) t).1 = 404 ∧
    (revokeConsentController s u (some m) t).2.records = s.records := by
  have hnone : ∀ r ∈ s.records, pairMatch u m r = false := by
    intro r hr
    have := List.filter_eq_nil_iff.mp h1 r hr
    simpa using this
  have hrev : revokeFirstActive u m t s.records = (false, s.records) :=
    revokeFirstActive_no_match u m t s.records hnone
  have hfst : (revokeModelConsent s u m t).1 = false := by
    simp [revokeModelConsent, hrev]
  have hrecs : (revokeModelConsent s u m t).2.records = s.records := by
    simp [revokeModelConsent, hrev]
  have hembset : setFirstEmbRevoked m t (s.users u) = s.users u := by
    apply setFirstEmbRevoked_no_match
    intro e he
    have := List.find?_eq_none.mp h2 e he
    simpa using this
  have husers : ∀ v, (revokeModelConsent s u m t).2.users v = s.users v := by
    intro v
    by_cases hv : v = u
    · subst hv
      rw [users_revoke_self, hembset]
    · exact users_revoke_other s u v m t hv
  refine ⟨hfst, hrecs, husers, ?_, ?_⟩
  · simp [revokeConsentController, revokeModelConsent, hrev]
  · simp [revokeConsentController, revokeModelConsent, hrev]

/-- Witness for C9 at a concrete input. -/
theorem revoke_without_prior_accept_witness :
    (revokeModelConsent initState "u1" "m1" 5).1 = false ∧
    (revokeModelConsent initState "u1" "m1" 5).2.records =
      initState.records ∧
    (∀ v, (revokeModelConsent initState "u1" "m1" 5).2.users v =
      initState.users v) ∧
    (revokeConsentController initState "u1" (some "m1") 5).1 = 404 ∧
    (revokeConsentController initState "u1" (some "m1") 5).2.records =
      initState.records :=
  revoke_without_prior_accept initState "u1" "m1" 5 rfl rfl

/-- C10: for both listing controllers the `includeRevoked` option passed to
the store is `true` exactly when the query parameter is the exact string
`'true'`; with any other value the flag is `false` and every listed
document is unrevoked. -/
theorem includeRevoked_exact_string (q : Option String) (s : DbState)
    (u : UserId) (m : String) :
    (parseIncludeRevoked q = true ↔ q = some "true") ∧
    (parseIncludeRevoked q = false →
      (∀ r ∈ getUserConsentsController s u q, r.revokedAt = none) ∧
      (∀ r ∈ (getModelConsentsController s (some m) q).2,
        r.revokedAt = none)) := by
  constructor
  · simp [parseIncludeRevoked]
  · intro hq
    constructor
    · intro r hr
      rw [getUserConsentsController, getUserConsents, hq,
        mem_sortByAcceptedAtDesc] at hr
      have := List.of_mem_filter hr
      simp at this
      exact this.2
    · intro r hr
      rw [getModelConsentsController] at hr
      rw [getModelConsents, hq, mem_sortByAcceptedAtDesc] at hr
      have := List.of_mem_filter hr
      simp at this
      exact this.2

/-- Witness for C10 at a concrete input: the value `'True'` does not count,
so a revoked document is excluded from both listings. -/
theorem includeRevoked_exact_string_witness :
    (parseIncludeRevoked (some "True") = true ↔
      (some "True" : Option String) = some "true") ∧
    (∀ r ∈ getUserConsentsController (revokeModelConsent
        (acceptModelConsent initState "u1" ⟨"m1", none, none⟩ 0).2 "u1"
        "m1" 1).2 "u1" (some "True"), r.revokedAt = none) ∧
    (∀ r ∈ (getModelConsentsController (revokeModelConsent
        (acceptModelConsent initState "u1" ⟨"m1", none, none⟩ 0).2 "u1"
        "m1" 1).2 (some "m1") (some "True")).2, r.revokedAt = none) :=
  ⟨(includeRevoked_exact_string (some "True") (revokeModelConsent
      (acceptModelConsent initState "u1" ⟨"m1", none, none⟩ 0).2 "u1" "m1"
      1).2 "u1" "m1").1,
    ((includeRevoked_exact_string (some "True") (revokeModelConsent
        (acceptModelConsent initState "u1" ⟨"m1", none, none⟩ 0).2 "u1"
        "m1" 1).2 "u1" "m1").2 (by decide)).1,
    ((includeRevoked_exact_string (some "True") (revokeModelConsent
        (acceptModelConsent initState "u1" ⟨"m1", none, none⟩ 0).2 "u1"
        "m1" 1).2 "u1" "m1").2 (by decide)).2⟩

/-! ### Gate lemmas (C4) -/

lemma checkModelConsent_of_blocked {specs : List TModelSpec}
    {consents : Option (List EmbeddedConsent)} {convo : Option ChatConvo}
    (h : GateBlocked specs consents convo) :
    ∃ spec, checkModelConsent specs consents convo = (false, [spec]) ∧
      spec.modalInfo.isSome = true ∧
      hasActiveConsentFor consents spec.name = false := by
  obtain ⟨c, spec, rfl, hfind, hmi, hname, hcon⟩ := h
  refine ⟨spec, ?_, hmi, hcon⟩
  have hbne : (spec.name != "") = true := by
    simpa [bne] using hname
  simp [checkModelConsent, hfind, hmi, hbne, hcon]

lemma checkModelConsent_false_cases (specs : List TModelSpec)
    (consents : Option (List EmbeddedConsent)) (convo : Option ChatConvo)
    (h : (checkModelConsent specs consents convo).1 = false) :
    ∃ spec, checkModelConsent specs consents convo = (false, [spec]) ∧
      spec.modalInfo.isSome = true ∧
      hasActiveConsentFor consents spec.name = false := by
  cases convo with
  | none => simp [checkModelConsent] at h
  | some c =>
    cases hfind : findSpecForConvo specs c with
    | none => simp [checkModelConsent, hfind] at h
    | some spec =>
      by_cases hg : (spec.modalInfo.isSome && spec.name != "") = true
      · by_cases hc : hasActiveConsentFor consents spec.name = true
        · simp [checkModelConsent, hfind, hg, hc] at h
        · have hc' : hasActiveConsentFor consents spec.name = false := by
            simpa using hc
          have hmi : spec.modalInfo.isSome = true := by
            simp only [Bool.and_eq_true] at hg
            exact hg.1
          refine ⟨spec, ?_, hmi, hc'⟩
          simp [checkModelConsent, hfind, hg, hc']
      · have hg' : (spec.modalInfo.isSome && spec.name != "") = false := by
          simpa using hg
        simp [checkModelConsent, hfind, hg'] at h

/-- C4 counterexample: the gate's condition also requires a truthy
`currentSpec?.name`, so a *gated* specification (with `modalInfo`) whose
`name` is the empty string is never blocked: with no consent on file,
submission still issues the root outbound call and dispatches no event —
refuting the claim as stated. -/
theorem submit_gated_empty_name_counterexample :
    (gatedNamelessSpec.modalInfo.isSome = true) ∧
    findSpecForConvo [gatedNamelessSpec]
      { endpoint := some "openAI", model := some "gpt-4" } =
        some gatedNamelessSpec ∧
    hasActiveConsentFor (some []) gatedNamelessSpec.name = false ∧
    submitMessage [gatedNamelessSpec] (some [])
        (some { endpoint := some "openAI", model := some "gpt-4" }) none 0 []
        (some "hello") =
      { calls := [SlotCall.root], events := [] } := by
  decide

/-- C4 (amended): if any active slot is blocked — it resolves to a
specification with `modalInfo` and a *nonempty* `name` for which the cached
consent set has no active entry — then submission issues zero outbound chat
calls for all slots and dispatches a `review-model-terms` event carrying
the blocking specification. -/
theorem submitMessage_blocks_all_slots (specs : List TModelSpec)
    (consents : Option (List EmbeddedConsent))
    (conversation addedConvo : Option ChatConvo) (addedIndex : Nat)
    (activeConvos : List String) (txt : String)
    (hblock : GateBlocked specs consents conversation ∨
      (hasAddedConvo addedIndex activeConvos addedConvo = true ∧
        GateBlocked specs consents addedConvo)) :
    (submitMessage specs consents conversation addedConvo addedIndex
        activeConvos (some txt)).calls = [] ∧
    ∃ spec, spec ∈ (submitMessage specs consents conversation addedConvo
        addedIndex activeConvos (some txt)).events ∧
      spec.modalInfo.isSome = true ∧
      hasActiveConsentFor consents spec.name = false := by
  by_cases hroot : (checkModelConsent specs consents conversation).1 = false
  · obtain ⟨spec, hc, hmi, hcon⟩ :=
      checkModelConsent_false_cases specs consents conversation hroot
    refine ⟨?_, spec, ?_, hmi, hcon⟩ <;>
      simp [submitMessage, hc]
  · have hroot' : (checkModelConsent specs consents conversation).1 = true := by
      simpa using hroot
    rcases hblock with hb | ⟨hadd, hb⟩
    · obtain ⟨spec, hc, _, _⟩ := checkModelConsent_of_blocked hb
      rw [hc] at hroot'
      simp at hroot'
    · obtain ⟨spec, hc, hmi, hcon⟩ := checkModelConsent_of_blocked hb
      refine ⟨?_, spec, ?_, hmi, hcon⟩ <;>
        simp [submitMessage, hroot', hadd, hc]

/-- Witness for the amended C4: slot A (root) targets a gated, unaccepted
specification, slot B (added) targets an ungated one; both slots are
blocked and the event carries the gated specification. -/
theorem submitMessage_blocks_all_slots_witness :
    (submitMessage [gatedClaudeSpec, ungatedGptSpec] (some [])
        (some { endpoint := some "bedrock", model := some "claude-3" })
        (some { endpoint := some "openAI", model := some "gpt-4o" }) 1
        ["c0", "c1"] (some "hello")).calls = [] ∧
    ∃ spec, spec ∈ (submitMessage [gatedClaudeSpec, ungatedGptSpec]
        (some [])
        (some { endpoint := some "bedrock", model := some "claude-3" })
        (some { endpoint := some "openAI", model := some "gpt-4o" }) 1
        ["c0", "c1"] (some "hello")).events ∧
      spec.modalInfo.isSome = true ∧
      hasActiveConsentFor (some []) spec.name = false :=
  submitMessage_blocks_all_slots [gatedClaudeSpec, ungatedGptSpec]
    (some [])
    (some { endpoint := some "bedrock", model := some "claude-3" })
    (some { endpoint := some "openAI", model := some "gpt-4o" }) 1
    ["c0", "c1"] "hello"
    (Or.inl ⟨{ endpoint := some "bedrock", model := some "claude-3" },
      gatedClaudeSpec, rfl, by decide, by decide, by decide, by decide⟩)

/-! ### Resolver kind-independence (C5) -/

/-- C5 counterexample: for the agent-backed endpoint `agents`, the resolver
does *not* compare `agent_id` — the specification with
`agent_id = "agent_abc"` is not found under that identifier, and it *is*
matched via its `model` field (`gpt-4o`), the field the claim reserves for
direct endpoints.  The gate's lookup behaves identically. -/
theorem getModelSpec_no_kind_branching_counterexample :
    agentSpecExample.preset.agent_id = some "agent_abc" ∧
    getModelSpec "agent_abc" "agents" (some [agentSpecExample]) = none ∧
    getModelSpec "gpt-4o" "agents" (some [agentSpecExample]) =
      some agentSpecExample ∧
    findSpecForConvo [agentSpecExample]
      { endpoint := some "agents", model := some "agent_abc" } = none ∧
    findSpecForConvo [agentSpecExample]
      { endpoint := some "agents", model := some "gpt-4o" } =
        some agentSpecExample := by
  decide

/-- C5 (amended): both resolvers match purely on `preset.model` and
`preset.endpoint` for every endpoint kind: any match has exactly those two
fields equal to the target, and rewriting `agent_id`/`assistant_id` on
every specification never changes the resolution result.  (The
agent/assistant/model branching exists only in the selector's
`handleSelectSpec`/`handleSelectModel`, which pick the *selected
identifier*, not in the resolvers.) -/
theorem getModelSpec_matches_on_model_field (model endpoint : String)
    (list : List TModelSpec) (aid asid : Option String) (c : ChatConvo) :
    ((getModelSpec model endpoint (some list)).all (fun spec =>
        spec.preset.model == some model &&
          spec.preset.endpoint == some endpoint)) = true ∧
    getModelSpec model endpoint (some (list.map (setSpecIds aid asid))) =
      (getModelSpec model endpoint (some list)).map (setSpecIds aid asid) ∧
    findSpecForConvo (list.map (setSpecIds aid asid)) c =
      (findSpecForConvo list c).map (setSpecIds aid asid) := by
  refine ⟨?_, ?_, ?_⟩
  · cases hfind : getModelSpec model endpoint (some list) with
    | none => rfl
    | some spec =>
      have := List.find?_some hfind
      simpa [Option.all] using this
  · show (list.map (setSpecIds aid asid)).find? _ = _
    rw [List.find?_map]
    have hp : ((fun spec => spec.preset.model == some model &&
        spec.preset.endpoint == some endpoint) ∘ setSpecIds aid asid) =
        (fun spec => spec.preset.model == some model &&
          spec.preset.endpoint == some endpoint) := by
      funext spec
      simp [setSpecIds, Function.comp]
    rw [hp]
    rfl
  · show (list.map (setSpecIds aid asid)).find? _ = _
    rw [List.find?_map]
    have hp : ((fun spec => spec.preset.endpoint == c.endpoint &&
        spec.preset.model == c.model) ∘ setSpecIds aid asid) =
        (fun spec => spec.preset.endpoint == c.endpoint &&
          spec.preset.model == c.model) := by
      funext spec
      simp [setSpecIds, Function.comp]
    rw [hp]
    rfl

/-! ### The consent modal (C6, C7) -/

/-- C6: the derived checklist has exactly one key per entry of
`modalInfo.warnings` plus one key for `costInfo` when present, and the
Accept control is enabled exactly when either `requireAcknowledgment` is
explicitly `false` or every checklist key is checked. -/
theorem modal_checklist_counts_and_accept_enabled (mi : ModalInfo)
    (acks : String → Bool) :
    (acknowledgmentKeys (some mi)).length =
      (mi.warnings.getD []).length +
        (if mi.costInfo.isSome then 1 else 0) ∧
    acceptButtonEnabled (some mi) acks =
      ((mi.requireAcknowledgment == some false) ||
        (acknowledgmentKeys (some mi)).all (fun k => acks k)) := by
  constructor
  · cases hc : mi.costInfo <;> simp [acknowledgmentKeys, hc]
  · cases hb : (mi.requireAcknowledgment == some false) <;>
      simp [acceptButtonEnabled, requireAckOf, allAcknowledged, hb]

/-- C7 counterexample: with a gated `modalInfo` (one warning, acknowledgment
required) and every checkbox checked, `handleAccept` closes the modal and
resets the checklist while issuing *zero* accept operations — so the modal
neither issues the accept operation nor conditions closing on its
success. -/
theorem handleAccept_closes_without_accept_counterexample :
    handleAccept (some oneWarningModalInfo) (fun _ => true) =
      { modalOpen := false, acksReset := true, acceptCalls := [] } := by
  decide

/-- C7 (amended): `handleAccept` never issues an accept operation; it
closes the modal and resets the checklist exactly when the Accept control
is enabled (acknowledgment not required, or all items checked), and
otherwise leaves the modal open with its state intact — closing is
unconditional on any operation's outcome. -/
theorem handleAccept_behavior (mi : Option ModalInfo)
    (acks : String → Bool) :
    (handleAccept mi acks).acceptCalls = [] ∧
    ((handleAccept mi acks).modalOpen = false ↔
      acceptButtonEnabled mi acks = true) ∧
    (handleAccept mi acks).acksReset = acceptButtonEnabled mi acks := by
  by_cases hg : (requireAckOf mi && !allAcknowledged mi acks) = true <;>
    simp [handleAccept, acceptButtonEnabled, hg]

end ModelConsent
